import Mathlib

/-!
Shallow embedding of the georust spatial library.

The numeric parts of the source (`src/haversine.rs`, the query functions in
`src/lib.rs`, `src/utils/postal.rs` and `src/utils/places.rs`) compute with
`f64`; they are embedded here over the real numbers, keeping the exact
expression structure of the source.  Container code (filters, `min_by_key`,
`dedup`, parsing) is embedded as executable list functions.
-/

namespace Georust

open Real

/-- `EARTH_RADIUS` from `src/haversine.rs`. -/
def EARTH_RADIUS : ℝ := 6371.0

/-- Rust's `f64::to_radians`: multiply by pi over 180. -/
noncomputable def toRadians (x : ℝ) : ℝ := x * (Real.pi / 180)

/-- Real-number model of `f64::atan2 self other` (IEEE semantics on the
reals, signed zeros and NaN excluded): the angle of the point
`(x, y)`. -/
noncomputable def atan2 (y x : ℝ) : ℝ :=
  if 0 < x then Real.arctan (y / x)
  else if x < 0 then
    (if 0 ≤ y then Real.arctan (y / x) + Real.pi else Real.arctan (y / x) - Real.pi)
  else (if 0 < y then Real.pi / 2 else if y < 0 then -(Real.pi / 2) else 0)

/-- `GeoLocation` from `src/models/geolocation.rs`, with `f64` modelled
as `ℝ`. -/
structure GeoLocation where
  latitude : ℝ
  longitude : ℝ

instance : Inhabited GeoLocation := ⟨⟨0, 0⟩⟩

/-- `calculate_distance` from `src/haversine.rs` (haversine great-circle
distance in kilometers). -/
noncomputable def calculate_distance (location_1 location_2 : GeoLocation) : ℝ :=
  let d_lat := toRadians (location_2.latitude - location_1.latitude)
  let d_lon := toRadians (location_2.longitude - location_1.longitude)
  let a := Real.sin (d_lat / 2) * Real.sin (d_lat / 2)
    + Real.cos (toRadians location_1.latitude) * Real.cos (toRadians location_2.latitude)
      * Real.sin (d_lon / 2) * Real.sin (d_lon / 2)
  let c := 2 * atan2 (Real.sqrt a) (Real.sqrt (1 - a))
  EARTH_RADIUS * c

/-- `GeoLocation::distance` from `src/models/geolocation.rs`. -/
noncomputable def GeoLocation.distance (self other : GeoLocation) : ℝ :=
  calculate_distance self other

/-- `BoundingBox` from `src/haversine.rs`. -/
structure BoundingBox where
  min_lat : ℝ
  max_lat : ℝ
  min_lon : ℝ
  max_lon : ℝ

/-- `BoundingBox::new` from `src/haversine.rs`. -/
noncomputable def BoundingBox.new (centre : GeoLocation) (threshold : ℝ) : BoundingBox :=
  let lat_diff := threshold / toRadians EARTH_RADIUS
  let lon_diff := threshold / toRadians (EARTH_RADIUS * Real.cos (toRadians centre.latitude))
  { min_lat := centre.latitude - lat_diff
    max_lat := centre.latitude + lat_diff
    min_lon := centre.longitude - lon_diff
    max_lon := centre.longitude + lon_diff }

/-- `is_within_bounding_box` from `src/haversine.rs` (inclusive range test
on both axes). -/
def is_within_bounding_box (location : GeoLocation) (bounding_box : BoundingBox) : Prop :=
  location.latitude ≥ bounding_box.min_lat
    ∧ location.latitude ≤ bounding_box.max_lat
    ∧ location.longitude ≥ bounding_box.min_lon
    ∧ location.longitude ≤ bounding_box.max_lon

/-- The distance of a location to itself is zero. -/
theorem calculate_distance_self (a : GeoLocation) : calculate_distance a a = 0 := by
  unfold calculate_distance atan2 toRadians
  norm_num

/-- The haversine distance is symmetric in its two arguments (exactly,
over the reals). -/
theorem calculate_distance_comm (a b : GeoLocation) :
    calculate_distance a b = calculate_distance b a := by
  simp only [calculate_distance, toRadians]
  have key : ∀ x y : ℝ, Real.sin ((x - y) * (Real.pi / 180) / 2)
      = -Real.sin ((y - x) * (Real.pi / 180) / 2) := by
    intro x y
    have h : (x - y) * (Real.pi / 180) / 2 = -((y - x) * (Real.pi / 180) / 2) := by ring
    rw [h, Real.sin_neg]
  rw [key b.latitude a.latitude, key b.longitude a.longitude]
  ring_nf

/-- For `|t| ≤ π` the sine of the absolute value is the absolute value of
the sine. -/
theorem sin_abs_eq_abs_sin {t : ℝ} (ht : |t| ≤ Real.pi) : Real.sin |t| = |Real.sin t| := by
  rcases abs_cases t with ⟨he, h0⟩ | ⟨he, h0⟩
  · rw [he, abs_of_nonneg]
    exact Real.sin_nonneg_of_nonneg_of_le_pi h0 (by rw [← he]; exact ht)
  · rw [he, Real.sin_neg, abs_of_nonpos]
    exact Real.sin_nonpos_of_nonnpos_of_neg_pi_le (le_of_lt h0)
      (by have := ht; rw [he] at this; linarith)

/-- Exact value of the embedded haversine distance between two points on
the equator whose longitudes differ by less than 180 degrees. -/
theorem calculate_distance_equator_near (x y : ℝ) (h : |y - x| < 180) :
    calculate_distance ⟨0, x⟩ ⟨0, y⟩ = EARTH_RADIUS * (|y - x| * (Real.pi / 180)) := by
  have hpi := Real.pi_pos
  set t : ℝ := (y - x) * (Real.pi / 180) / 2 with ht_def
  have habs : |t| = |y - x| * (Real.pi / 180) / 2 := by
    rw [ht_def, abs_div, abs_mul, abs_of_pos (by positivity : (0:ℝ) < Real.pi / 180)]
    norm_num
  have htlt : |t| < Real.pi / 2 := by
    rw [habs]
    nlinarith [abs_nonneg (y - x)]
  have htge : -(Real.pi / 2) < |t| := lt_of_lt_of_le (by linarith) (abs_nonneg t)
  have hcos : 0 < Real.cos t := Real.cos_pos_of_mem_Ioo ⟨by cases abs_lt.mp htlt; linarith, lt_of_le_of_lt (le_abs_self t) htlt⟩
  simp only [calculate_distance, toRadians]
  rw [show (0 - 0 : ℝ) * (Real.pi / 180) = 0 by ring, show (0 : ℝ) * (Real.pi / 180) = 0 by ring]
  simp only [zero_div, Real.sin_zero, zero_mul, Real.cos_zero, one_mul, mul_zero, zero_add]
  rw [show (y - x) * (Real.pi / 180) / 2 = t from rfl]
  rw [show Real.sin t * Real.sin t = Real.sin t ^ 2 by ring, Real.sqrt_sq_eq_abs,
    show (1 : ℝ) - Real.sin t ^ 2 = Real.cos t ^ 2 by
      have := Real.sin_sq_add_cos_sq t; linarith,
    Real.sqrt_sq_eq_abs, abs_of_pos hcos]
  rw [atan2, if_pos hcos]
  rw [← sin_abs_eq_abs_sin (by linarith [Real.pi_gt_three] : |t| ≤ Real.pi), ← Real.cos_abs t,
    ← Real.tan_eq_sin_div_cos, Real.arctan_tan htge htlt, habs]
  ring

/-- Exact value of the embedded haversine distance between two points on
the equator whose longitudes differ by between 180 and 360 degrees: the
great circle runs the short way round, across the antimeridian. -/
theorem calculate_distance_equator_far (x y : ℝ) (h1 : 180 < |y - x|) (h2 : |y - x| < 360) :
    calculate_distance ⟨0, x⟩ ⟨0, y⟩ = EARTH_RADIUS * ((360 - |y - x|) * (Real.pi / 180)) := by
  have hpi := Real.pi_pos
  set t : ℝ := (y - x) * (Real.pi / 180) / 2 with ht_def
  have habs : |t| = |y - x| * (Real.pi / 180) / 2 := by
    rw [ht_def, abs_div, abs_mul, abs_of_pos (by positivity : (0:ℝ) < Real.pi / 180)]
    norm_num
  have htgt : Real.pi / 2 < |t| := by rw [habs]; nlinarith
  have htlt : |t| < Real.pi := by rw [habs]; nlinarith
  set u : ℝ := Real.pi - |t| with hu_def
  have hu0 : 0 < u := by rw [hu_def]; linarith
  have hult : u < Real.pi / 2 := by rw [hu_def]; linarith
  have hcosu : 0 < Real.cos u := Real.cos_pos_of_mem_Ioo ⟨by linarith, hult⟩
  simp only [calculate_distance, toRadians]
  rw [show (0 - 0 : ℝ) * (Real.pi / 180) = 0 by ring, show (0 : ℝ) * (Real.pi / 180) = 0 by ring]
  simp only [zero_div, Real.sin_zero, zero_mul, Real.cos_zero, one_mul, mul_zero, zero_add]
  rw [show Real.sin t * Real.sin t = Real.sin t ^ 2 by ring, Real.sqrt_sq_eq_abs,
    show (1 : ℝ) - Real.sin t ^ 2 = Real.cos t ^ 2 by
      have := Real.sin_sq_add_cos_sq t; linarith,
    Real.sqrt_sq_eq_abs]
  have hsin : |Real.sin t| = Real.sin u := by
    rw [← sin_abs_eq_abs_sin (le_of_lt htlt), show |t| = Real.pi - u by rw [hu_def]; ring,
      Real.sin_pi_sub]
  have hcos : |Real.cos t| = Real.cos u := by
    rw [← Real.cos_abs t, show |t| = Real.pi - u by rw [hu_def]; ring, Real.cos_pi_sub, abs_neg,
      abs_of_pos hcosu]
  rw [hsin, hcos, atan2, if_pos hcosu, ← Real.tan_eq_sin_div_cos,
    Real.arctan_tan (by linarith) hult, hu_def, habs]
  ring

open Classical

/-- `Accuracy` from `src/models/geonames.rs`. -/
inductive Accuracy where
  | NoLocation
  | NoAccuracyData
  | Estimated
  | SamePostalCodeOtherName
  | GeonameId
  | Centroid
deriving DecidableEq

/-- `impl FromStr for Accuracy` from `src/models/geonames.rs`
(lines 42-56): every string maps to `Ok`; unrecognized codes fall back to
`NoAccuracyData`. -/
def Accuracy.from_str (s : String) : Except Unit Accuracy :=
  match s with
  | "0" => .ok .NoLocation
  | "1" => .ok .Estimated
  | "3" => .ok .SamePostalCodeOtherName
  | "4" => .ok .GeonameId
  | "6" => .ok .Centroid
  | _ => .ok .NoAccuracyData

/-- `PostalData` record. Modelled from the spec for the field list
(`src/src/models/geonames_postal.rs` is not under `src/`; §3 of the spec
and the construction in `load_postal_data` fix the fields, with the
coordinate held as `geolocation : Option GeoLocation` exactly as every
query function in `src/utils/postal.rs` and `src/lib.rs` accesses it). -/
structure PostalData where
  country_code : String
  postal_code : String
  place_name : Option String
  admin_name1 : Option String
  admin_code1 : Option String
  admin_name2 : Option String
  admin_code2 : Option String
  admin_name3 : Option String
  admin_code3 : Option String
  geolocation : Option GeoLocation
  accuracy : Accuracy

/-- `chrono::NaiveDate` reduced to its calendar fields (only carried,
never computed with, by this library). -/
structure NaiveDate where
  year : ℤ
  month : ℕ
  day : ℕ

/-- `Gazetteer` from `src/models/geonames_gazetteer.rs`. -/
structure Gazetteer where
  id : ℤ
  name : String
  asciiname : String
  alternate_names : List String
  geolocation : Option GeoLocation
  feature_class : String
  feature_code : String
  country_code : String
  alternate_country_codes : List String
  admin1_code : Option String
  admin2_code : Option String
  admin3_code : Option String
  admin4_code : Option String
  population : ℤ
  elevation : ℤ
  dem : ℤ
  timezone : String
  modification_date : NaiveDate

/-- `i32::MIN` as an integer. -/
def i32_MIN : ℤ := -(2 ^ 31)

/-- `i32::MAX` as an integer. -/
def i32_MAX : ℤ := 2 ^ 31 - 1

/-- Rust's `f64 as i32` saturating cast on the reals: truncation toward
zero, clamped to the `i32` range (NaN does not arise in the real
model). -/
noncomputable def f64_as_i32 (x : ℝ) : ℤ :=
  if 0 ≤ x then min ⌊x⌋ i32_MAX else max ⌈x⌉ i32_MIN

/-- The running scan of Rust's `Iterator::min_by_key`: the current
champion is replaced only by a strictly smaller key, so the first element
attaining the minimum wins. -/
def min_by_key_go (key : α → ℤ) (cur : α) : List α → α
  | [] => cur
  | x :: xs => if key x < key cur then min_by_key_go key x xs else min_by_key_go key cur xs

/-- Rust's `Iterator::min_by_key`: `none` on an empty iterator, otherwise
the first element with the minimal key. -/
def min_by_key (key : α → ℤ) : List α → Option α
  | [] => none
  | x :: xs => some (min_by_key_go key x xs)

/-- The tail scan of Rust's `Vec::dedup`: drop an element equal to its
immediate predecessor, keep the first of each run. -/
noncomputable def dedup_go (prev : α) : List α → List α
  | [] => []
  | b :: rest => if b = prev then dedup_go prev rest else b :: dedup_go b rest

/-- Rust's `Vec::dedup`: remove consecutive repeated elements, keeping the
first of each run. -/
noncomputable def dedup : List α → List α
  | [] => []
  | a :: rest => a :: dedup_go a rest

/-- The `min_by_key` key used by every nearest-record query in the
source: the haversine distance of the record's (unwrapped) coordinate to
the query location, cast `as i32`. -/
noncomputable def postal_key (location : GeoLocation) (geoname : PostalData) : ℤ :=
  f64_as_i32 ((geoname.geolocation.getD default).distance location)

/-- The same key closure for gazetteer records. -/
noncomputable def gazetteer_key (location : GeoLocation) (geoname : Gazetteer) : ℤ :=
  f64_as_i32 ((geoname.geolocation.getD default).distance location)

/-- `get_nearest_postcode`; the same iterator chain appears verbatim in
`src/lib.rs` (lines 21-32) and `src/utils/postal.rs` (lines 13-21).
`unwrap` on the coordinate is modelled by `Option.getD default`; the
preceding filter makes that branch unreachable. -/
noncomputable def get_nearest_postcode (location : GeoLocation)
    (geonames_data : List PostalData) : Option PostalData :=
  min_by_key (postal_key location)
    (geonames_data.filter (fun geoname => geoname.geolocation.isSome))

/-- `get_nearest_place` from `src/lib.rs` (lines 46-52) and
`src/utils/places.rs` (lines 13-18). -/
noncomputable def get_nearest_place (location : GeoLocation)
    (geonames_data : List Gazetteer) : Option Gazetteer :=
  min_by_key (gazetteer_key location)
    (geonames_data.filter (fun geoname => geoname.geolocation.isSome))

/-- `get_nearest_postcode_with_bounding` from `src/utils/postal.rs`
(lines 35-49). -/
noncomputable def get_nearest_postcode_with_bounding (location : GeoLocation)
    (geonames_data : List PostalData) (threshold : ℝ) : Option PostalData :=
  let bounds : BoundingBox := BoundingBox.new location threshold
  min_by_key (postal_key location)
    ((geonames_data.filter (fun geoname => geoname.geolocation.isSome)).filter
      (fun geoname => decide (is_within_bounding_box (geoname.geolocation.getD default) bounds)))

/-- `get_postcode_location` from `src/lib.rs` (lines 64-76) and
`src/utils/postal.rs` (lines 61-73): `.next()` on the iterator is
`List.head?`. -/
def get_postcode_location (postcode : String)
    (geonames_data : List PostalData) : Option GeoLocation :=
  ((geonames_data.filter (fun geoname => geoname.postal_code == postcode)).filterMap
    (fun geoname => geoname.geolocation)).head?

/-- `get_place_location` from `src/lib.rs` (lines 88-105) and
`src/utils/places.rs` (lines 58-74). -/
def get_place_location (place : String)
    (geonames_data : List Gazetteer) : Option GeoLocation :=
  ((geonames_data.filter (fun geoname =>
      geoname.name == place || geoname.asciiname == place
        || geoname.alternate_names.contains place)).filterMap
    (fun geoname => geoname.geolocation)).head?

/-- `get_postcodes_within_radius` from `src/utils/postal.rs`
(lines 86-108): bounding-box pre-filter, then the exact haversine test,
then projection to the postal code. -/
noncomputable def get_postcodes_within_radius (location : GeoLocation) (radius : ℝ)
    (geonames_data : List PostalData) : List String :=
  let bounds : BoundingBox := BoundingBox.new location radius
  ((((geonames_data.filter (fun geoname => geoname.geolocation.isSome)).filter
      (fun geoname => decide (is_within_bounding_box (geoname.geolocation.getD default) bounds))).filter
    (fun geoname => decide ((geoname.geolocation.getD default).distance location ≤ radius))).map
    (fun geoname => geoname.postal_code))

/-- `get_postal_data_within_radius` from `src/utils/postal.rs`
(lines 121-139): the same two-stage filter, returning whole records, with
`Vec::dedup` applied to the result. -/
noncomputable def get_postal_data_within_radius (location : GeoLocation) (radius : ℝ)
    (geonames_data : List PostalData) : List PostalData :=
  let bounds : BoundingBox := BoundingBox.new location radius
  dedup
    (((geonames_data.filter (fun geoname => geoname.geolocation.isSome)).filter
        (fun geoname => decide (is_within_bounding_box (geoname.geolocation.getD default) bounds))).filter
      (fun geoname => decide ((geoname.geolocation.getD default).distance location ≤ radius)))

/-- `x` is the first element of `l`, in iteration order, attaining the
minimal key: it occurs in `l`, its key is a lower bound of all keys, and
every element strictly before it has a strictly larger key. -/
def IsFirstMinBy (key : α → ℤ) (l : List α) (x : α) : Prop :=
  ∃ l1 l2, l = l1 ++ x :: l2 ∧ (∀ y ∈ l, key x ≤ key y) ∧ (∀ y ∈ l1, key x < key y)

theorem min_by_key_go_spec (key : α → ℤ) :
    ∀ (l : List α) (cur : α), IsFirstMinBy key (cur :: l) (min_by_key_go key cur l) := by
  intro l
  induction l with
  | nil =>
    intro cur
    simp only [min_by_key_go]
    exact ⟨[], [], rfl, by simp, by simp⟩
  | cons x xs ih =>
    intro cur
    by_cases hx : key x < key cur
    · rw [min_by_key_go, if_pos hx]
      obtain ⟨l1, l2, heq, hmin, hlt⟩ := ih x
      have hrx : key (min_by_key_go key x xs) ≤ key x := hmin x (List.mem_cons_self x xs)
      refine ⟨cur :: l1, l2, ?_, ?_, ?_⟩
      · rw [List.cons_append, ← heq]
      · intro y hy
        rcases List.mem_cons.mp hy with h1 | h2
        · subst h1
          exact le_of_lt (lt_of_le_of_lt hrx hx)
        · exact hmin y h2
      · intro y hy
        rcases List.mem_cons.mp hy with h1 | h2
        · subst h1
          exact lt_of_le_of_lt hrx hx
        · exact hlt y h2
    · rw [min_by_key_go, if_neg hx]
      obtain ⟨l1, l2, heq, hmin, hlt⟩ := ih cur
      have hcx : key cur ≤ key x := not_lt.mp hx
      cases l1 with
      | nil =>
        simp only [List.nil_append] at heq
        injection heq with hr hl2
        refine ⟨[], x :: xs, by simp [← hr], ?_, by simp⟩
        intro y hy
        rcases List.mem_cons.mp hy with h1 | h2
        · subst h1
          rw [← hr]
        · rcases List.mem_cons.mp h2 with h3 | h4
          · subst h3
            rw [← hr]
            exact hcx
          · exact hmin y (List.mem_cons_of_mem cur h4)
      | cons c l1t =>
        rw [List.cons_append] at heq
        injection heq with hc hxs
        have hrc : key (min_by_key_go key cur xs) < key cur := by
          have h := hlt c (List.mem_cons_self c l1t)
          rw [← hc] at h
          exact h
        refine ⟨cur :: x :: l1t, l2, by rw [List.cons_append, List.cons_append, ← hxs], ?_, ?_⟩
        · intro y hy
          rcases List.mem_cons.mp hy with h1 | h2
          · subst h1
            exact le_of_lt hrc
          · rcases List.mem_cons.mp h2 with h3 | h4
            · subst h3
              exact le_of_lt (lt_of_lt_of_le hrc hcx)
            · exact hmin y (List.mem_cons_of_mem cur h4)
        · intro y hy
          rcases List.mem_cons.mp hy with h1 | h2
          · subst h1
            exact hrc
          · rcases List.mem_cons.mp h2 with h3 | h4
            · subst h3
              exact lt_of_lt_of_le hrc hcx
            · exact hlt y (List.mem_cons_of_mem c h4)

/-- `min_by_key` returns the first element attaining the minimal key. -/
theorem min_by_key_spec (key : α → ℤ) (l : List α) (x : α)
    (h : min_by_key key l = some x) : IsFirstMinBy key l x := by
  cases l with
  | nil => simp [min_by_key] at h
  | cons c t =>
    rw [min_by_key] at h
    injection h with h
    exact h ▸ min_by_key_go_spec key t c

/-- `min_by_key` returns `none` exactly on the empty list. -/
theorem min_by_key_eq_none_iff (key : α → ℤ) (l : List α) :
    min_by_key key l = none ↔ l = [] := by
  cases l <;> simp [min_by_key]

/-- Everything `dedup_go` keeps came from its input. -/
theorem dedup_go_subset : ∀ (l : List α) (prev x : α), x ∈ dedup_go prev l → x ∈ l := by
  intro l
  induction l with
  | nil =>
    intro prev x h
    simp [dedup_go] at h
  | cons b rest ih =>
    intro prev x h
    rw [dedup_go] at h
    by_cases hb : b = prev
    · rw [if_pos hb] at h
      exact List.mem_cons_of_mem b (ih prev x h)
    · rw [if_neg hb] at h
      rcases List.mem_cons.mp h with h1 | h2
      · exact h1 ▸ List.mem_cons_self b rest
      · exact List.mem_cons_of_mem b (ih b x h2)

/-- `dedup_go` drops only elements equal to a kept neighbour: every input
element is still present once the previous element is put back. -/
theorem mem_cons_dedup_go : ∀ (l : List α) (prev x : α), x ∈ l → x ∈ prev :: dedup_go prev l := by
  intro l
  induction l with
  | nil =>
    intro prev x h
    cases h
  | cons b rest ih =>
    intro prev x h
    rw [dedup_go]
    by_cases hb : b = prev
    · rw [if_pos hb]
      rcases List.mem_cons.mp h with h1 | h2
      · subst h1
        rw [hb]
        exact List.mem_cons_self prev _
      · exact ih prev x h2
    · rw [if_neg hb]
      rcases List.mem_cons.mp h with h1 | h2
      · subst h1
        exact List.mem_cons_of_mem prev (List.mem_cons_self x _)
      · exact List.mem_cons_of_mem prev (ih b x h2)

/-- Adjacent deduplication preserves membership in both directions. -/
theorem mem_dedup_iff (l : List α) (x : α) : x ∈ dedup l ↔ x ∈ l := by
  cases l with
  | nil => simp [dedup]
  | cons a rest =>
    rw [dedup]
    constructor
    · intro h
      rcases List.mem_cons.mp h with h1 | h2
      · exact h1 ▸ List.mem_cons_self a rest
      · exact List.mem_cons_of_mem a (dedup_go_subset rest a x h2)
    · intro h
      rcases List.mem_cons.mp h with h1 | h2
      · exact h1 ▸ List.mem_cons_self a _
      · exact mem_cons_dedup_go rest a x h2

/-- The saturating cast of a real in `[0, 1)` is `0`. -/
theorem f64_as_i32_eq_zero {x : ℝ} (h0 : 0 ≤ x) (h1 : x < 1) : f64_as_i32 x = 0 := by
  rw [f64_as_i32, if_pos h0, Int.floor_eq_zero_iff.mpr (Set.mem_Ico.mpr ⟨h0, h1⟩)]
  exact min_eq_left (by norm_num [i32_MAX])

/-- Test fixture: the origin. -/
def pt0 : GeoLocation := ⟨0, 0⟩

/-- Test fixture: a postal record with a given code and coordinate. -/
def mkPostal (code : String) (loc : Option GeoLocation) : PostalData :=
  ⟨"GB", code, none, none, none, none, none, none, none, loc, .NoAccuracyData⟩

/-- Fixture record 0.008 degrees of longitude east of the origin. -/
def recA : PostalData := mkPostal "AA" (some ⟨0, 0.008⟩)

/-- Fixture record 0.004 degrees of longitude east of the origin. -/
def recB : PostalData := mkPostal "BB" (some ⟨0, 0.004⟩)

theorem distA_eq : calculate_distance ⟨0, 0.008⟩ ⟨0, 0⟩
    = EARTH_RADIUS * (0.008 * (Real.pi / 180)) := by
  have h := calculate_distance_equator_near 0.008 0 (by
    rw [show (0:ℝ) - 0.008 = -(0.008) by ring, abs_neg, abs_of_nonneg (by norm_num)]
    norm_num)
  rwa [show |(0:ℝ) - 0.008| = 0.008 by
    rw [show (0:ℝ) - 0.008 = -(0.008) by ring, abs_neg, abs_of_nonneg (by norm_num)]] at h

theorem distB_eq : calculate_distance ⟨0, 0.004⟩ ⟨0, 0⟩
    = EARTH_RADIUS * (0.004 * (Real.pi / 180)) := by
  have h := calculate_distance_equator_near 0.004 0 (by
    rw [show (0:ℝ) - 0.004 = -(0.004) by ring, abs_neg, abs_of_nonneg (by norm_num)]
    norm_num)
  rwa [show |(0:ℝ) - 0.004| = 0.004 by
    rw [show (0:ℝ) - 0.004 = -(0.004) by ring, abs_neg, abs_of_nonneg (by norm_num)]] at h

theorem keyA_eq : postal_key pt0 recA = 0 := by
  rw [postal_key, recA, mkPostal]
  simp only [Option.getD_some, GeoLocation.distance, pt0]
  apply f64_as_i32_eq_zero
  · rw [distA_eq]
    have := Real.pi_pos
    norm_num [EARTH_RADIUS]
    positivity
  · rw [distA_eq]
    have := Real.pi_lt_d2
    norm_num [EARTH_RADIUS]
    nlinarith

theorem keyB_eq : postal_key pt0 recB = 0 := by
  rw [postal_key, recB, mkPostal]
  simp only [Option.getD_some, GeoLocation.distance, pt0]
  apply f64_as_i32_eq_zero
  · rw [distB_eq]
    have := Real.pi_pos
    norm_num [EARTH_RADIUS]
    positivity
  · rw [distB_eq]
    have := Real.pi_lt_d2
    norm_num [EARTH_RADIUS]
    nlinarith

theorem nearest_AB_eq : get_nearest_postcode pt0 [recA, recB] = some recA := by
  have hfil : [recA, recB].filter (fun geoname => geoname.geolocation.isSome) = [recA, recB] := by
    simp [recA, recB, mkPostal]
  rw [get_nearest_postcode, hfil, min_by_key]
  simp only [min_by_key_go, keyA_eq, keyB_eq, lt_self_iff_false, if_false]

theorem nearest_A_single : get_nearest_postcode pt0 [recA] = some recA := by
  have hfil : [recA].filter (fun geoname => geoname.geolocation.isSome) = [recA] := by
    simp [recA, mkPostal]
  rw [get_nearest_postcode, hfil, min_by_key, min_by_key_go]

/-- C2 (amended): `get_nearest_postcode` considers only records with a
present coordinate and returns `none` exactly when there is none; a
returned record is the first record, in iteration order, attaining the
minimal value of the comparison key actually used by the code — the
haversine distance truncated by the `as i32` cast — which is not always a
record of minimal exact haversine distance. -/
theorem claim2_nearest_postcode_spec (location : GeoLocation) (geonames_data : List PostalData) :
    (get_nearest_postcode location geonames_data = none
      ↔ ∀ geoname ∈ geonames_data, geoname.geolocation = none)
    ∧ (∀ g, get_nearest_postcode location geonames_data = some g →
        IsFirstMinBy (postal_key location)
          (geonames_data.filter (fun geoname => geoname.geolocation.isSome)) g) := by
  constructor
  · rw [get_nearest_postcode, min_by_key_eq_none_iff, List.filter_eq_nil_iff]
    constructor
    · intro h geoname hmem
      have hns := h geoname hmem
      cases hgeo : geoname.geolocation with
      | none => rfl
      | some loc => rw [hgeo] at hns; simp at hns
    · intro h geoname hmem
      simp [h geoname hmem]
  · intro g h
    exact min_by_key_spec _ _ _ h

/-- C2 witness: on the two-record fixture the returned record `recA` is
the first record attaining the minimal truncated key. -/
theorem claim2_witness :
    IsFirstMinBy (postal_key pt0)
      ([recA, recB].filter (fun geoname => geoname.geolocation.isSome)) recA :=
  (claim2_nearest_postcode_spec pt0 [recA, recB]).2 recA nearest_AB_eq

/-- C2 counterexample: with the query point at the origin and two records
0.008 and 0.004 degrees east of it (in that order), the code returns the
first record even though the second is strictly nearer by exact haversine
distance — both distances truncate to the same whole number of
kilometers, so the claimed exact-distance minimality fails. -/
theorem claim2_counterexample :
    get_nearest_postcode pt0 [recA, recB] = some recA
    ∧ recB ∈ [recA, recB]
    ∧ recA.geolocation = some ⟨0, 0.008⟩
    ∧ recB.geolocation = some ⟨0, 0.004⟩
    ∧ GeoLocation.distance ⟨0, 0.004⟩ pt0 < GeoLocation.distance ⟨0, 0.008⟩ pt0 := by
  refine ⟨nearest_AB_eq, by simp, rfl, rfl, ?_⟩
  rw [GeoLocation.distance, GeoLocation.distance, pt0, distA_eq, distB_eq]
  have := Real.pi_pos
  norm_num [EARTH_RADIUS]
  nlinarith

/-- Fixture gazetteer record 0.004 degrees east of the origin. -/
def gazA : Gazetteer :=
  ⟨1, "Witham", "Witham", [], some ⟨0, 0.004⟩, "P", "PPL", "GB", [],
    none, none, none, none, 0, 0, 0, "Europe/London", ⟨2024, 1, 1⟩⟩

theorem nearest_place_single : get_nearest_place pt0 [gazA] = some gazA := by
  have hfil : [gazA].filter (fun geoname => geoname.geolocation.isSome) = [gazA] := by
    simp [gazA]
  rw [get_nearest_place, hfil, min_by_key, min_by_key_go]

/-- C3: whenever `get_nearest_postcode` (resp. `get_nearest_place`)
returns a record, that record is the first record in iteration order whose
comparison key — the haversine distance to the query point cast `as i32`,
that is, truncated to a whole number of kilometers — is minimal among the
coordinate-bearing records. -/
theorem claim3_truncated_comparison_key (location : GeoLocation)
    (postal_data : List PostalData) (gazetteer_data : List Gazetteer)
    (g : PostalData) (gz : Gazetteer)
    (hp : get_nearest_postcode location postal_data = some g)
    (hg : get_nearest_place location gazetteer_data = some gz) :
    IsFirstMinBy (postal_key location)
      (postal_data.filter (fun geoname => geoname.geolocation.isSome)) g
    ∧ IsFirstMinBy (gazetteer_key location)
      (gazetteer_data.filter (fun geoname => geoname.geolocation.isSome)) gz := by
  constructor
  · exact min_by_key_spec _ _ _ hp
  · exact min_by_key_spec _ _ _ hg

/-- C3 witness: concrete singleton fixtures on which both nearest queries
return a record, and the theorem places it first-minimal by truncated
key. -/
theorem claim3_witness :
    IsFirstMinBy (postal_key pt0)
      ([recA].filter (fun geoname => geoname.geolocation.isSome)) recA
    ∧ IsFirstMinBy (gazetteer_key pt0)
      ([gazA].filter (fun geoname => geoname.geolocation.isSome)) gazA :=
  claim3_truncated_comparison_key pt0 [recA] [gazA] recA gazA nearest_A_single
    nearest_place_single

/-- C5: if every record's coordinate lies outside the bounding box built
from the query point and the threshold, `get_nearest_postcode_with_bounding`
returns `none` — the box filter empties the candidate list before the
minimum is taken. -/
theorem claim5_bounded_nearest_none (location : GeoLocation)
    (geonames_data : List PostalData) (threshold : ℝ)
    (h : ∀ geoname ∈ geonames_data, ∀ loc, geoname.geolocation = some loc →
      ¬ is_within_bounding_box loc (BoundingBox.new location threshold)) :
    get_nearest_postcode_with_bounding location geonames_data threshold = none := by
  simp only [get_nearest_postcode_with_bounding]
  rw [min_by_key_eq_none_iff, List.filter_eq_nil_iff]
  intro geoname hmem
  obtain ⟨hin, hsome⟩ := List.mem_filter.mp hmem
  obtain ⟨loc, hloc⟩ := Option.isSome_iff_exists.mp hsome
  rw [hloc]
  simp only [Option.getD_some, decide_eq_true_eq]
  exact h geoname hin loc hloc

/-- Fixture record far from the origin (latitude and longitude 50). -/
def rec50 : PostalData := mkPostal "CC" (some ⟨50, 50⟩)

/-- C5 witness: a concrete input on which every record is outside the box,
the bounded query returns `none`, and yet the unbounded
`get_nearest_postcode` returns a record. -/
theorem claim5_witness :
    get_nearest_postcode_with_bounding pt0 [rec50] 1 = none
    ∧ get_nearest_postcode pt0 [rec50] = some rec50 := by
  constructor
  · apply claim5_bounded_nearest_none
    intro geoname hmem loc hloc
    have hg : geoname = rec50 := by simpa using hmem
    subst hg
    rw [rec50, mkPostal] at hloc
    injection hloc with hloc
    subst hloc
    intro hbox
    obtain ⟨h1, h2, h3, h4⟩ := hbox
    simp only [BoundingBox.new, toRadians, EARTH_RADIUS, pt0] at h2
    have hpi := Real.pi_gt_three
    have hd : 180 / Real.pi < 60 := by
      rw [div_lt_iff₀ (by linarith)]
      linarith
    norm_num at h2
    nlinarith
  · have hfil : [rec50].filter (fun geoname => geoname.geolocation.isSome) = [rec50] := by
      simp [rec50, mkPostal]
    rw [get_nearest_postcode, hfil, min_by_key, min_by_key_go]

/-- For a centre latitude inside `[-90, 90]` the bounding box grows with
the threshold: a location inside the box for `r` stays inside for any
`r2 ≥ r`. -/
theorem is_within_bounding_box_monotone (centre : GeoLocation) {r r2 : ℝ} (hr : r ≤ r2)
    (hlat1 : -90 ≤ centre.latitude) (hlat2 : centre.latitude ≤ 90) (loc : GeoLocation)
    (h : is_within_bounding_box loc (BoundingBox.new centre r)) :
    is_within_bounding_box loc (BoundingBox.new centre r2) := by
  obtain ⟨h1, h2, h3, h4⟩ := h
  simp only [BoundingBox.new, ge_iff_le] at h1 h2 h3 h4
  have hpi := Real.pi_pos
  have hEpos : (0 : ℝ) < toRadians EARTH_RADIUS := by
    rw [toRadians, EARTH_RADIUS]
    positivity
  have hlatdiff : r / toRadians EARTH_RADIUS ≤ r2 / toRadians EARTH_RADIUS := by gcongr
  have hcos : 0 ≤ Real.cos (toRadians centre.latitude) := by
    apply Real.cos_nonneg_of_mem_Icc
    constructor
    · rw [toRadians]
      nlinarith
    · rw [toRadians]
      nlinarith
  have hd : 0 ≤ toRadians (EARTH_RADIUS * Real.cos (toRadians centre.latitude)) := by
    rw [toRadians]
    apply mul_nonneg (mul_nonneg (by rw [EARTH_RADIUS]; norm_num) hcos)
    positivity
  rcases eq_or_lt_of_le hd with heq | hpos
  · rw [← heq, div_zero] at h3 h4
    refine ⟨by simp only [BoundingBox.new]; linarith, by simp only [BoundingBox.new]; linarith,
      ?_, ?_⟩
    · simp only [BoundingBox.new, ge_iff_le, ← heq, div_zero]
      linarith
    · simp only [BoundingBox.new, ← heq, div_zero]
      linarith
  · have hlondiff : r / toRadians (EARTH_RADIUS * Real.cos (toRadians centre.latitude))
        ≤ r2 / toRadians (EARTH_RADIUS * Real.cos (toRadians centre.latitude)) := by gcongr
    exact ⟨by simp only [BoundingBox.new, ge_iff_le]; linarith,
      by simp only [BoundingBox.new]; linarith,
      by simp only [BoundingBox.new, ge_iff_le]; linarith,
      by simp only [BoundingBox.new]; linarith⟩

/-- C6: for a query point with latitude in `[-90, 90]` and radii
`r ≤ r2`, every postcode returned by `get_postcodes_within_radius` at
radius `r` is also returned at radius `r2`: the box grows with the radius
and the exact distance test is monotone in it. -/
theorem claim6_within_radius_monotone (location : GeoLocation) (r r2 : ℝ)
    (geonames_data : List PostalData)
    (hlat1 : -90 ≤ location.latitude) (hlat2 : location.latitude ≤ 90) (hr : r ≤ r2) :
    ∀ s ∈ get_postcodes_within_radius location r geonames_data,
      s ∈ get_postcodes_within_radius location r2 geonames_data := by
  intro s hs
  simp only [get_postcodes_within_radius] at hs ⊢
  obtain ⟨g, hg, hgs⟩ := List.mem_map.mp hs
  obtain ⟨hg2, hdist⟩ := List.mem_filter.mp hg
  obtain ⟨hg3, hbox⟩ := List.mem_filter.mp hg2
  apply List.mem_map.mpr
  refine ⟨g, ?_, hgs⟩
  apply List.mem_filter.mpr
  refine ⟨List.mem_filter.mpr ⟨hg3, ?_⟩, ?_⟩
  · rw [decide_eq_true_eq] at hbox ⊢
    exact is_within_bounding_box_monotone location hr hlat1 hlat2 _ hbox
  · rw [decide_eq_true_eq] at hdist ⊢
    exact le_trans hdist hr

/-- Fixture record lying exactly at the origin. -/
def recO : PostalData := mkPostal "OO" (some pt0)

theorem origin_in_box (r : ℝ) (hr : 0 ≤ r) :
    is_within_bounding_box pt0 (BoundingBox.new pt0 r) := by
  have hpi := Real.pi_pos
  have hE : (0:ℝ) < toRadians EARTH_RADIUS := by
    rw [toRadians, EARTH_RADIUS]
    positivity
  have hcos0 : Real.cos (toRadians (pt0.latitude)) = 1 := by
    rw [pt0, toRadians]
    norm_num
  have hd : (0:ℝ) < toRadians (EARTH_RADIUS * Real.cos (toRadians pt0.latitude)) := by
    rw [hcos0, toRadians, EARTH_RADIUS]
    positivity
  have hlat : 0 ≤ r / toRadians EARTH_RADIUS := div_nonneg hr (le_of_lt hE)
  have hlon : 0 ≤ r / toRadians (EARTH_RADIUS * Real.cos (toRadians pt0.latitude)) :=
    div_nonneg hr (le_of_lt hd)
  refine ⟨?_, ?_, ?_, ?_⟩ <;>
    simp only [BoundingBox.new, pt0, ge_iff_le] <;>
    simp only [pt0] at hlat hlon <;>
    linarith

theorem within1_origin : get_postcodes_within_radius pt0 1 [recO] = ["OO"] := by
  simp only [get_postcodes_within_radius]
  have h1 : [recO].filter (fun geoname => geoname.geolocation.isSome) = [recO] := by
    simp [recO, mkPostal]
  rw [h1]
  rw [List.filter_cons_of_pos, List.filter_cons_of_pos]
  · rfl
  · rw [decide_eq_true_eq, recO, mkPostal]
    simp only [Option.getD_some, GeoLocation.distance]
    rw [calculate_distance_self]
    norm_num
  · rw [decide_eq_true_eq, recO, mkPostal]
    simp only [Option.getD_some]
    exact origin_in_box 1 (by norm_num)

/-- C6 witness: the origin record returned at radius 1 is also returned
at radius 2. -/
theorem claim6_witness : "OO" ∈ get_postcodes_within_radius pt0 2 [recO] :=
  claim6_within_radius_monotone pt0 1 2 [recO] (by norm_num [pt0]) (by norm_num [pt0])
    (by norm_num) "OO" (by rw [within1_origin]; exact List.mem_singleton.mpr rfl)

/-- Fixture query point just east of the antimeridian. -/
def ptE : GeoLocation := ⟨0, 179⟩

/-- Fixture record just west of the antimeridian, about 222 km from
`ptE` across it. -/
def recW : PostalData := mkPostal "WW" (some ⟨0, -179⟩)

theorem distW_eq : calculate_distance ⟨0, -179⟩ ptE
    = EARTH_RADIUS * (2 * (Real.pi / 180)) := by
  have h := calculate_distance_equator_far (-179) 179 (by norm_num) (by norm_num)
  rw [show |(179:ℝ) - -179| = 358 by norm_num] at h
  rw [ptE]
  rw [h]
  norm_num

theorem distW_le : GeoLocation.distance ⟨0, -179⟩ ptE ≤ 300 := by
  rw [GeoLocation.distance, distW_eq, EARTH_RADIUS]
  have := Real.pi_lt_d2
  nlinarith

theorem recW_not_in_box : ¬ is_within_bounding_box ⟨0, -179⟩ (BoundingBox.new ptE 300) := by
  intro h
  obtain ⟨h1, h2, h3, h4⟩ := h
  simp only [BoundingBox.new, ptE, ge_iff_le, toRadians] at h3
  rw [show (0:ℝ) * (Real.pi / 180) = 0 by ring, Real.cos_zero, mul_one, EARTH_RADIUS] at h3
  have hpi := Real.pi_gt_three
  have hd : (0:ℝ) < 6371.0 * (Real.pi / 180) := by positivity
  have h300 : 300 / (6371.0 * (Real.pi / 180)) < 3 := by
    rw [div_lt_iff₀ hd]
    nlinarith
  linarith

theorem within_radius_recW_empty : get_postal_data_within_radius ptE 300 [recW] = [] := by
  simp only [get_postal_data_within_radius]
  have h1 : [recW].filter (fun geoname => geoname.geolocation.isSome) = [recW] := by
    simp [recW, mkPostal]
  rw [h1, List.filter_cons_of_neg, List.filter_nil, List.filter_nil]
  · rfl
  · simp only [decide_eq_true_eq, recW, mkPostal, Option.getD_some]
    exact recW_not_in_box

/-- C1 counterexample: across the antimeridian the bounding-box
pre-filter produces a false negative.  The record at longitude -179 is
about 222 km from the query point at longitude 179 — well within the
300 km radius — yet `get_postal_data_within_radius` returns the empty
list, because the box `[179 - lon_diff, 179 + lon_diff]` does not wrap
and -179 falls outside it. -/
theorem claim1_counterexample :
    recW.geolocation = some ⟨0, -179⟩
    ∧ GeoLocation.distance ⟨0, -179⟩ ptE ≤ 300
    ∧ recW ∈ [recW]
    ∧ get_postal_data_within_radius ptE 300 [recW] = [] :=
  ⟨rfl, distW_le, List.mem_singleton.mpr rfl, within_radius_recW_empty⟩

/-- C1 (amended): every record returned by
`get_postal_data_within_radius` has a present coordinate within the exact
haversine radius (soundness), and every record of the slice with a
present coordinate that lies *inside the bounding box* and within the
radius appears in the result (completeness relative to the box: the
adjacent dedup removes no last occurrence, but records outside the
non-wrapping box are lost even when within the radius). -/
theorem claim1_within_radius_two_sided (location : GeoLocation) (radius : ℝ)
    (geonames_data : List PostalData) (g : PostalData) :
    (g ∈ get_postal_data_within_radius location radius geonames_data →
      ∃ loc, g.geolocation = some loc ∧ GeoLocation.distance loc location ≤ radius)
    ∧ (g ∈ geonames_data → ∀ loc, g.geolocation = some loc →
        is_within_bounding_box loc (BoundingBox.new location radius) →
        GeoLocation.distance loc location ≤ radius →
        g ∈ get_postal_data_within_radius location radius geonames_data) := by
  constructor
  · intro h
    simp only [get_postal_data_within_radius] at h
    rw [mem_dedup_iff] at h
    obtain ⟨h2, hdist⟩ := List.mem_filter.mp h
    obtain ⟨h3, _hbox⟩ := List.mem_filter.mp h2
    obtain ⟨_hin, hsome⟩ := List.mem_filter.mp h3
    obtain ⟨loc, hloc⟩ := Option.isSome_iff_exists.mp hsome
    refine ⟨loc, hloc, ?_⟩
    rw [decide_eq_true_eq, hloc, Option.getD_some] at hdist
    exact hdist
  · intro hin loc hloc hbox hdist
    simp only [get_postal_data_within_radius]
    rw [mem_dedup_iff]
    refine List.mem_filter.mpr ⟨List.mem_filter.mpr ⟨List.mem_filter.mpr ⟨hin, ?_⟩, ?_⟩, ?_⟩
    · rw [hloc]
      rfl
    · rw [hloc]
      simp only [Option.getD_some, decide_eq_true_eq]
      exact hbox
    · rw [hloc]
      simp only [Option.getD_some, decide_eq_true_eq]
      exact hdist

/-- C1 witness: the origin record, inside the box and within the radius,
does appear in the result. -/
theorem claim1_witness : recO ∈ get_postal_data_within_radius pt0 300 [recO] :=
  (claim1_within_radius_two_sided pt0 300 [recO] recO).2 (List.mem_singleton.mpr rfl) pt0 rfl
    (origin_in_box 300 (by norm_num))
    (by rw [GeoLocation.distance, calculate_distance_self]; norm_num)

/-- C10: the haversine distance is symmetric; over the real-number model
the two values are equal, so the difference is below any positive
tolerance. -/
theorem claim10_distance_symmetric (a b : GeoLocation) :
    |calculate_distance a b - calculate_distance b a| < 1e-9 := by
  rw [calculate_distance_comm a b, sub_self, abs_zero]
  norm_num

/-- The head of `filterMap f` over `filter p` is the value of `f` at the
first element satisfying both `p` and `(f _).isSome`. -/
theorem head_filterMap_filter {α β : Type} (p : α → Bool) (f : α → Option β) :
    ∀ l : List α, ((l.filter p).filterMap f).head?
      = (l.find? (fun a => p a && (f a).isSome)).bind f := by
  intro l
  induction l with
  | nil => rfl
  | cons a as ih =>
    by_cases hp : p a
    · rw [List.filter_cons_of_pos hp]
      cases hf : f a with
      | none =>
        rw [List.filterMap_cons_none hf, List.find?_cons_of_neg, ih]
        rw [hf, hp]
        simp
      | some b =>
        rw [List.filterMap_cons_some hf, List.find?_cons_of_pos _ (by simp [hp, hf])]
        simp [hf]
    · rw [List.filter_cons_of_neg hp, List.find?_cons_of_neg _ (by simp [hp]), ih]

/-- C9: the key-to-location lookups return the coordinate of the first
record in iteration order that matches the key and has a present
coordinate, and `none` when no such record exists; for postal records the
key is postal-code equality, for places it is the primary name, the ASCII
name, or membership in the alternate names. -/
theorem claim9_locate_by_key (postcode place : String) (postal_data : List PostalData)
    (gazetteer_data : List Gazetteer) :
    get_postcode_location postcode postal_data
      = (postal_data.find? (fun geoname =>
          geoname.postal_code == postcode && geoname.geolocation.isSome)).bind
          (fun geoname => geoname.geolocation)
    ∧ get_place_location place gazetteer_data
      = (gazetteer_data.find? (fun geoname =>
          (geoname.name == place || geoname.asciiname == place
            || geoname.alternate_names.contains place) && geoname.geolocation.isSome)).bind
          (fun geoname => geoname.geolocation) :=
  ⟨head_filterMap_filter _ _ postal_data, head_filterMap_filter _ _ gazetteer_data⟩

/-- C8: `Accuracy::from_str` never fails: "0" maps to `NoLocation`, "6"
to `Centroid`, every string other than the five recognized codes maps to
`NoAccuracyData`, and every input yields `Ok`. -/
theorem claim8_accuracy_from_str_total :
    Accuracy.from_str "0" = .ok .NoLocation
    ∧ Accuracy.from_str "6" = .ok .Centroid
    ∧ (∀ s : String, s ∉ (["0", "1", "3", "4", "6"] : List String) →
        Accuracy.from_str s = .ok .NoAccuracyData)
    ∧ (∀ s : String, ∃ a, Accuracy.from_str s = .ok a) := by
  refine ⟨rfl, rfl, ?_, ?_⟩
  · intro s hs
    simp only [List.mem_cons, List.not_mem_nil, or_false, not_or] at hs
    obtain ⟨h0, h1, h3, h4, h6⟩ := hs
    unfold Accuracy.from_str
    split
    · exact absurd rfl h0
    · exact absurd rfl h1
    · exact absurd rfl h3
    · exact absurd rfl h4
    · exact absurd rfl h6
    · rfl
  · intro s
    unfold Accuracy.from_str
    split <;> exact ⟨_, rfl⟩

/-- C8 witness: the unrecognized code "zz" parses without error to
`NoAccuracyData`. -/
theorem claim8_witness :
    "zz" ∉ (["0", "1", "3", "4", "6"] : List String)
    ∧ Accuracy.from_str "zz" = .ok .NoAccuracyData :=
  ⟨by decide, (claim8_accuracy_from_str_total).2.2.1 "zz" (by decide)⟩

/-- `Country` enumeration.  Modelled from the spec:
`src/src/models/countries.rs` is not under `src/`; the spec's country
identifier collaborator names four "full/extended" variants of a base
country, and the source files mention these plus `UnitedStates`,
`GreatBritain`, `UnitedKingdom` and `All`. -/
inductive Country where
  | GreatBritain
  | UnitedKingdom
  | Netherlands
  | Canada
  | UnitedStates
  | All
  | GreatBritainFull
  | UnitedKingdomFull
  | NetherlandsFull
  | CanadaFull
deriving DecidableEq

/-- Modelled from the spec: the country identifier collaborator (the
`Display` impl in the missing `countries.rs`) maps each variant to its
canonical upstream identifier string, used in URLs and cache keys.  The
theorems below do not depend on the concrete strings. -/
def Country.toIdentifier : Country → String
  | .GreatBritain => "GB"
  | .UnitedKingdom => "UK"
  | .Netherlands => "NL"
  | .Canada => "CA"
  | .UnitedStates => "US"
  | .All => "allCountries"
  | .GreatBritainFull => "GB_full"
  | .UnitedKingdomFull => "UK_full"
  | .NetherlandsFull => "NL_full"
  | .CanadaFull => "CA_full"

/-- `GENONAMES_POSTAL_URL_BASE` from `src/geonames/postal.rs`. -/
def GENONAMES_POSTAL_URL_BASE : String := "http://download.geonames.org/export/zip"

/-- `GEONAMES_GAZETTEER_URL_BASE` from `src/geonames/gazetteer.rs`. -/
def GEONAMES_GAZETTEER_URL_BASE : String := "https://download.geonames.org/export/dump"

/-- The four-element array checked by both URL builders. -/
def full_countries : List Country :=
  [.GreatBritainFull, .UnitedKingdomFull, .NetherlandsFull, .CanadaFull]

/-- `get_postal_url` from `src/geonames/postal.rs` (lines 6-19): the four
full variants get the `.csv.zip` archive extension, all others `.zip`. -/
def get_postal_url (country : Country) : String :=
  if country ∈ full_countries then
    GENONAMES_POSTAL_URL_BASE ++ "/" ++ country.toIdentifier ++ ".csv.zip"
  else
    GENONAMES_POSTAL_URL_BASE ++ "/" ++ country.toIdentifier ++ ".zip"

/-- `get_gazetteer_url` from `src/geonames/gazetteer.rs` (lines 7-20):
the `panic!` for the four full variants is modelled as `none`. -/
def get_gazetteer_url (country : Country) : Option String :=
  if country ∈ full_countries then none
  else some (GEONAMES_GAZETTEER_URL_BASE ++ "/" ++ country.toIdentifier ++ ".zip")

/-- `Data` from `src/geonames/mod.rs`. -/
inductive Data where
  | Postal
  | Gazetteer

/-- The externally observable I/O steps of `download`. -/
inductive IOEvent where
  | cacheRead
  | netFetch
  | archiveExtract
  | cacheWrite
deriving DecidableEq

/-- The external world `download` interacts with: the cache-disabling
environment variable, the cached text when the cache file exists, and the
text obtained when the fetch-and-extract pipeline succeeds. -/
structure DownloadEnv where
  disableCache : Bool
  cachedText : Option String
  fetchedText : Option String

/-- `download` from `src/geonames/mod.rs` (lines 49-93), as a function of
the external environment, paired with the ordered trace of I/O steps it
performs.  As in the source, the URL is resolved (lines 59-62) before the
cache-existence check (line 69), the network fetch (line 77), the archive
extraction (line 82) and the cache write-back (line 89); the gazetteer
panic for a full variant is modelled as `none` and aborts with an empty
trace. -/
def download (country : Country) (data_type : Data) (env : DownloadEnv) :
    Option String × List IOEvent :=
  let url? : Option String :=
    match data_type with
    | .Postal => some (get_postal_url country)
    | .Gazetteer => get_gazetteer_url country
  match url? with
  | none => (none, [])
  | some _url =>
    if env.disableCache = false ∧ env.cachedText.isSome then
      (env.cachedText, [.cacheRead])
    else
      match env.fetchedText with
      | none => (none, [.netFetch])
      | some data =>
        if env.disableCache then (some data, [.netFetch, .archiveExtract])
        else (some data, [.netFetch, .archiveExtract, .cacheWrite])

/-- C7: for each of the four full variants, requesting gazetteer data
fails before any cache read, network fetch or archive extraction, in
every environment; while the postal URL for the same variant uses the
`.csv.zip` extension. -/
theorem claim7_full_variants (country : Country) (h : country ∈ full_countries)
    (env : DownloadEnv) :
    download country .Gazetteer env = (none, [])
    ∧ get_postal_url country
        = GENONAMES_POSTAL_URL_BASE ++ "/" ++ country.toIdentifier ++ ".csv.zip" := by
  constructor
  · simp only [download, get_gazetteer_url, if_pos h]
  · rw [get_postal_url, if_pos h]

/-- C7 witness: the `GreatBritainFull` variant, in a cold-cache
environment. -/
theorem claim7_witness :
    Country.GreatBritainFull ∈ full_countries
    ∧ download .GreatBritainFull .Gazetteer ⟨false, none, none⟩ = (none, [])
    ∧ get_postal_url .GreatBritainFull
        = "http://download.geonames.org/export/zip/GB_full.csv.zip" := by
  refine ⟨by decide, (claim7_full_variants _ (by decide) _).1, ?_⟩
  rw [(claim7_full_variants .GreatBritainFull (by decide) ⟨false, none, none⟩).2]
  rfl

/-- Rust's `str::split` on a single separator character, over the
character list of the line (structural recursion, so concrete instances
evaluate): splitting the empty string yields one empty field, and every
separator starts a new field. -/
def splitOnChar (sep : Char) : List Char → List (List Char)
  | [] => [[]]
  | c :: rest =>
    if c = sep then [] :: splitOnChar sep rest
    else
      match splitOnChar sep rest with
      | [] => [[c]]
      | f :: r => (c :: f) :: r

/-- Accumulate decimal digits; `none` on any non-digit. -/
def digitsToNat? (l : List Char) : Option ℕ :=
  l.foldl
    (fun acc c => acc.bind (fun n => if c.isDigit then some (10 * n + (c.toNat - 48)) else none))
    (some 0)

/-- A non-empty run of decimal digits. -/
def parseNatDigits (l : List Char) : Option ℕ :=
  if l = [] then none else digitsToNat? l

/-- Modelled from the spec: Rust's `f64::from_str` (standard library, not
under `src/`), restricted to the plain decimal notation the geonames data
uses — an optional leading minus, integer digits, and optional fractional
digits — with the value held exactly as a rational. -/
def parseDecimal (s : List Char) : Option ℚ :=
  let p : Bool × List Char :=
    match s with
    | '-' :: r => (true, r)
    | r => (false, r)
  let abs? : Option ℚ :=
    match splitOnChar '.' p.2 with
    | [ip] => (parseNatDigits ip).map (fun n => mkRat (Int.ofNat n) 1)
    | [ip, fp] =>
      match parseNatDigits ip, parseNatDigits fp with
      | some n, some f => some (mkRat (Int.ofNat (n * 10 ^ fp.length + f)) (10 ^ fp.length))
      | _, _ => none
    | _ => none
  abs?.map (fun q => if p.1 then -q else q)

/-- The per-line closure of `load_postal_data` from
`src/geonames/postal.rs` (lines 25-44): the line is split on tabs;
positions 2-8 are read with the safe `fields.get(i)`, while positions
0, 1, 9, 10 and 11 are read by direct index and the coordinates are
parsed with `unwrap` — `none` models the panic of an out-of-bounds index
or an unparseable number.  The coordinate is always constructed with
`Some`, and the accuracy parse cannot fail. -/
def load_postal_line (line : String) : Option PostalData :=
  let fields : List (List Char) := splitOnChar '\t' line.data
  match fields.get? 0, fields.get? 1, fields.get? 9, fields.get? 10, fields.get? 11 with
  | some f0, some f1, some f9, some f10, some f11 =>
    match parseDecimal f9, parseDecimal f10 with
    | some lat, some lon =>
      some
        { country_code := ⟨f0⟩
          postal_code := ⟨f1⟩
          place_name := (fields.get? 2).map (fun s => (⟨s⟩ : String))
          admin_name1 := (fields.get? 3).map (fun s => (⟨s⟩ : String))
          admin_code1 := (fields.get? 4).map (fun s => (⟨s⟩ : String))
          admin_name2 := (fields.get? 5).map (fun s => (⟨s⟩ : String))
          admin_code2 := (fields.get? 6).map (fun s => (⟨s⟩ : String))
          admin_name3 := (fields.get? 7).map (fun s => (⟨s⟩ : String))
          admin_code3 := (fields.get? 8).map (fun s => (⟨s⟩ : String))
          geolocation := some ⟨(lat : ℝ), (lon : ℝ)⟩
          accuracy :=
            match Accuracy.from_str ⟨f11⟩ with
            | .ok a => a
            | .error _ => .NoAccuracyData }
    | _, _ => none
  | _, _, _, _, _ => none

theorem parse_full_line :
    load_postal_line "a\tb\tc\td\te\tf\tg\th\ti\t1.5\t-0.5\t6"
      = some
          { country_code := "a"
            postal_code := "b"
            place_name := some "c"
            admin_name1 := some "d"
            admin_code1 := some "e"
            admin_name2 := some "f"
            admin_code2 := some "g"
            admin_name3 := some "h"
            admin_code3 := some "i"
            geolocation := some ⟨1.5, -0.5⟩
            accuracy := .Centroid } := by
  have h : load_postal_line "a\tb\tc\td\te\tf\tg\th\ti\t1.5\t-0.5\t6"
      = some
          { country_code := "a"
            postal_code := "b"
            place_name := some "c"
            admin_name1 := some "d"
            admin_code1 := some "e"
            admin_name2 := some "f"
            admin_code2 := some "g"
            admin_name3 := some "h"
            admin_code3 := some "i"
            geolocation := some ⟨((mkRat 3 2 : ℚ) : ℝ), ((-(mkRat 1 2) : ℚ) : ℝ)⟩
            accuracy := .Centroid } := by
    rfl
  rw [h]
  simp only [Option.some.injEq, PostalData.mk.injEq, GeoLocation.mk.injEq]
  norm_num

/-- C4 (amended): parsing a tab-delimited line with all twelve fields
present recovers every field exactly; but a line with fewer than twelve
tab-separated fields — in particular one missing trailing optional
fields — makes the parse panic (modelled as `none`) rather than yield
absent fields, because latitude, longitude and accuracy are read by
direct index after the safely accessed optional positions. -/
theorem claim4_parse_line_amended :
    load_postal_line "a\tb\tc\td\te\tf\tg\th\ti\t1.5\t-0.5\t6"
      = some
          { country_code := "a"
            postal_code := "b"
            place_name := some "c"
            admin_name1 := some "d"
            admin_code1 := some "e"
            admin_name2 := some "f"
            admin_code2 := some "g"
            admin_name3 := some "h"
            admin_code3 := some "i"
            geolocation := some ⟨1.5, -0.5⟩
            accuracy := .Centroid }
    ∧ ∀ line : String, (splitOnChar '\t' line.data).length < 12 →
        load_postal_line line = none := by
  refine ⟨parse_full_line, ?_⟩
  intro line h
  have h11 : (splitOnChar '\t' line.data).get? 11 = none := List.get?_eq_none.mpr (by omega)
  simp only [load_postal_line]
  rw [h11]
  cases hg0 : (splitOnChar '\t' line.data).get? 0 <;>
    cases hg1 : (splitOnChar '\t' line.data).get? 1 <;>
      cases hg9 : (splitOnChar '\t' line.data).get? 9 <;>
        cases hg10 : (splitOnChar '\t' line.data).get? 10 <;> rfl

/-- C4 witness: a three-field line triggers the truncated-line branch of
the amended claim. -/
theorem claim4_witness :
    (splitOnChar '\t' "US\t99553\tAkutan".data).length < 12
    ∧ load_postal_line "US\t99553\tAkutan" = none :=
  ⟨by decide, claim4_parse_line_amended.2 "US\t99553\tAkutan" (by decide)⟩

/-- C4 counterexample: the line `"GB\tCM8"` has exactly the two mandatory
fields and is missing every trailing optional field; the claim says such a
line parses without error, but `load_postal_data`'s per-line closure
panics on it (`fields[9]` is out of bounds), modelled here as `none`. -/
theorem claim4_counterexample : load_postal_line "GB\tCM8" = none := by rfl
